import Mathlib

/- Verification development for the AURA underwriting processing engine
   (message-driven orchestrator: filtration, execution, consolidation).
   The Lean definitions below are a shallow embedding of the Python sources;
   each doc comment names the source file and function the definition embeds. -/

namespace Aura

/-! ## Character and string ordering

CPython compares `str` values by code point, lexicographically.  This is
the order `sorted` and `json.dumps(..., sort_keys=True)` use for string
keys, so it is the order the payload hasher depends on. -/

/-- Boolean comparison of two characters by Unicode code point. -/
def charLeB (a b : Char) : Bool := decide (a ≤ b)

/-- Lexicographic comparison of character lists by code point: the way
CPython compares two `str` values. -/
def clistLe : List Char → List Char → Bool
  | [], _ => true
  | _ :: _, [] => false
  | a :: as, b :: bs => if a = b then clistLe as bs else charLeB a b

/-- Python string comparison `s <= t` (code-point lexicographic). -/
def strLe (s t : String) : Bool := clistLe s.data t.data

/-! ## Payload values

Payloads are Python data: JSON-style values plus the Python-specific
collection types (`tuple`, `set`) that `_normalize_for_hashing` in
src/src/aura/processing_engine/utils/hashing.py treats specially. -/

/-- Primitive (hashable) Python values — the only values that can be members
of a Python `set` inside a payload.  `pnull` is Python `None`.  Floats,
dates and decimals are handled by `json_serial` in the source
(utils/hashing.py); they play no role in the claims and are not modeled. -/
inductive JPrim where
  | pnull
  | pbool (b : Bool)
  | pint (n : Int)
  | pstr (s : String)
deriving DecidableEq

/-- Rank used to totalize the member order across primitive types.  Python's
`sorted` raises TypeError when it compares values of different types; the
model extends the order to a total one and coincides with Python on the
homogeneous sets the engine actually produces. -/
def JPrim.rank : JPrim → Nat
  | .pnull => 0
  | .pbool _ => 1
  | .pint _ => 2
  | .pstr _ => 3

/-- Boolean order on primitive values: within one type it is the Python
order (False < True, numeric order on ints, code-point order on strings);
across types it falls back to `JPrim.rank` (see there). -/
def JPrim.leB : JPrim → JPrim → Bool
  | .pbool x, .pbool y => !x || y
  | .pint m, .pint n => decide (m ≤ n)
  | .pstr s, .pstr t => strLe s t
  | a, b => Nat.ble a.rank b.rank

/-- Abstract Python payload value.  A Python dict is an insertion-ordered
association list; the engine's dicts have distinct keys (Python dicts cannot
repeat a key). -/
inductive JValue where
  | jnull
  | jbool (b : Bool)
  | jint (n : Int)
  | jstr (s : String)
  | jlist (xs : List JValue)
  | jtuple (xs : List JValue)
  | jset (xs : List JPrim)
  | jdict (es : List (String × JValue))

/-- A Python dict value: ordered association list of string keys. -/
abbrev JDict := List (String × JValue)

/-- Embedding of a primitive value into payload values. -/
def JPrim.toJValue : JPrim → JValue
  | .pnull => .jnull
  | .pbool b => .jbool b
  | .pint n => .jint n
  | .pstr s => .jstr s

/-- Values in the image of `_normalize_for_hashing` after key sorting:
plain JSON data whose object entries are sorted by key; sets and tuples
are gone (both became lists). -/
inductive CValue where
  | cnull
  | cbool (b : Bool)
  | cint (n : Int)
  | cstr (s : String)
  | carr (xs : List CValue)
  | cobj (es : List (String × CValue))

/-- Embedding of a primitive value into normalized values
(`_normalize_for_hashing` is the identity on primitives). -/
def JPrim.toCValue : JPrim → CValue
  | .pnull => .cnull
  | .pbool b => .cbool b
  | .pint n => .cint n
  | .pstr s => .cstr s

/-- Order on normalized dict entries: by key, in Python string order.  This
is the comparison `json.dumps(..., sort_keys=True)` sorts object items by. -/
def entryLe (a b : String × CValue) : Prop := strLe a.1 b.1 = true

instance : DecidableRel entryLe :=
  fun a b => inferInstanceAs (Decidable (strLe a.1 b.1 = true))

/-- Order `sorted` applies to the members of a set being normalized. -/
def primLe (a b : JPrim) : Prop := JPrim.leB a b = true

instance : DecidableRel primLe :=
  fun a b => inferInstanceAs (Decidable (JPrim.leB a b = true))

mutual
/-- Model of `_normalize_for_hashing` (utils/hashing.py lines 127-164)
composed with the `sort_keys=True` ordering of the `json.dumps` call that
follows it in `generate_payload_hash`: dict values are normalized
recursively and every dict's entries are sorted by key; lists and tuples
keep their item order (tuples become lists); sets become sorted lists.
The source normalizes each set member before sorting; set members are
primitives, on which normalization is the identity, so the model embeds
them directly after sorting. -/
def normalize_for_hashing : JValue → CValue
  | .jnull => .cnull
  | .jbool b => .cbool b
  | .jint n => .cint n
  | .jstr s => .cstr s
  | .jlist xs => .carr (normalizeList xs)
  | .jtuple xs => .carr (normalizeList xs)
  | .jset xs => .carr ((List.insertionSort primLe xs).map JPrim.toCValue)
  | .jdict es => .cobj (List.insertionSort entryLe (normalizeEntries es))

/-- Pointwise normalization of the items of a list or tuple (order kept). -/
def normalizeList : List JValue → List CValue
  | [] => []
  | x :: xs => normalize_for_hashing x :: normalizeList xs

/-- Pointwise normalization of dict entries, keys and order untouched. -/
def normalizeEntries : List (String × JValue) → List (String × CValue)
  | [] => []
  | (k, v) :: es => (k, normalize_for_hashing v) :: normalizeEntries es
end

/-! ## JSON serialization (`json.dumps` with default separators) -/

/-- One lowercase hexadecimal digit, as Python's \uXXXX escapes print it. -/
def hexDigit (n : Nat) : Char :=
  if n < 10 then Char.ofNat (48 + n) else Char.ofNat (87 + n)

/-- Four-digit hexadecimal rendering of a number below 65536. -/
def hex4 (n : Nat) : String :=
  String.mk [hexDigit (n / 4096 % 16), hexDigit (n / 256 % 16),
             hexDigit (n / 16 % 16), hexDigit (n % 16)]

/-- Model of the escaping `json.dumps` (with its default `ensure_ascii`)
applies to one character of a string: the two-character escapes for quote,
backslash and common control characters, \uXXXX for other control and all
non-ASCII characters (surrogate pairs above the BMP), and the character
itself otherwise. -/
def escapeChar (c : Char) : String :=
  if c = '"' then "\\\""
  else if c = '\\' then "\\\\"
  else if c = '\n' then "\\n"
  else if c = '\t' then "\\t"
  else if c = '\r' then "\\r"
  else if c.toNat = 8 then "\\b"
  else if c.toNat = 12 then "\\f"
  else if c.toNat < 32 ∨ c.toNat > 126 then
    if c.toNat ≤ 65535 then "\\u" ++ hex4 c.toNat
    else
      let n := c.toNat - 65536
      "\\u" ++ hex4 (55296 + n / 1024) ++ "\\u" ++ hex4 (56320 + n % 1024)
  else String.singleton c

/-- Serialization of a string as a JSON string literal, as `json.dumps`
prints it. -/
def jsonQuote (s : String) : String :=
  "\"" ++ String.join (s.data.map escapeChar) ++ "\""

mutual
/-- Model of `json.dumps` with its default separators (", " between items,
": " between key and value) applied to a normalized value.  The
`sort_keys=True` step is already part of `normalize_for_hashing`, so dict
entries are serialized in the order given. -/
def json_dumps : CValue → String
  | .cnull => "null"
  | .cbool true => "true"
  | .cbool false => "false"
  | .cint n => toString n
  | .cstr s => jsonQuote s
  | .carr xs => "[" ++ dumpsItems xs ++ "]"
  | .cobj es => "\x7b" ++ dumpsEntries es ++ "\x7d"

/-- Comma-separated serialization of array items. -/
def dumpsItems : List CValue → String
  | [] => ""
  | [x] => json_dumps x
  | x :: y :: xs => json_dumps x ++ ", " ++ dumpsItems (y :: xs)

/-- Comma-separated serialization of object entries. -/
def dumpsEntries : List (String × CValue) → String
  | [] => ""
  | [(k, v)] => jsonQuote k ++ ": " ++ json_dumps v
  | (k, v) :: e :: es => jsonQuote k ++ ": " ++ json_dumps v ++ ", " ++ dumpsEntries (e :: es)
end

/-- Canonical JSON string of a payload value: `json.dumps(normalized,
sort_keys=True, default=json_serial)` from `generate_payload_hash`
(utils/hashing.py lines 79-84).  This string, UTF-8 encoded, is the exact
input of the SHA-256 digest the source returns. -/
def canonicalJson (v : JValue) : String :=
  json_dumps (normalize_for_hashing v)

/-! ## Triggers and the payload hash -/

/-- Trigger declaration of a processor (`PROCESSOR_TRIGGERS` in the source):
a dict with the optional keys `application_form` (dot-path field names) and
`documents_list` (stipulation types). -/
structure Triggers where
  application_form : Option (List String) := none
  documents_list : Option (List String) := none

/-- Python `d.get(k)` on a dict value. -/
def dictGet (k : String) (d : JDict) : Option JValue :=
  (d.find? (fun e => e.1 = k)).map (fun e => e.2)

/-- Model of `_extract_trigger_fields` (utils/hashing.py lines 92-124):
keep, from the payload, only the `application_form` sub-dict restricted to
the trigger-declared fields (when that key exists in both the triggers and
the payload, and the filtered sub-dict is non-empty), and the payload's
`revision_id` (when the triggers declare `documents_list` and the payload
has that key).  The source indexes `payload["application_form"]` with
`.get`, so that value must be a dict; the model skips a non-dict value
where the source would raise. -/
def extract_trigger_fields (payload : JDict) (processor_triggers : Triggers) : JDict :=
  let fp₁ : JDict :=
    match processor_triggers.application_form, dictGet "application_form" payload with
    | some trigger_fields, some (.jdict app_form) =>
      match trigger_fields.filterMap
        (fun f => (dictGet f app_form).map (fun v => (f, v))) with
      | [] => []
      | filtered@(_ :: _) => [("application_form", .jdict filtered)]
    | _, _ => []
  let fp₂ : JDict :=
    match processor_triggers.documents_list, dictGet "revision_id" payload with
    | some _, some v => [("revision_id", v)]
    | _, _ => []
  fp₁ ++ fp₂

/-- Model of `generate_payload_hash` (utils/hashing.py lines 41-89).  The
source returns the SHA-256 hex digest of the canonical JSON string; SHA-256
is a fixed function of that string, so the model identifies the hash with
the canonical string it digests — equal strings give equal digests, and
distinct canonical strings give distinct digests for every practical
purpose (collision-freeness of SHA-256).  `processor_triggers = none`
models both an absent and an empty (falsy) triggers argument. -/
def generate_payload_hash (payload : JDict)
    (processor_triggers : Option Triggers := none) : String :=
  let hashed := match processor_triggers with
    | some t => extract_trigger_fields payload t
    | none => payload
  canonicalJson (.jdict hashed)

/-- Equality of payload values as abstract Python data, in the sense of the
spec's determinism claim: structural equality everywhere, except that the
entries of a dict may come in any insertion order (Python dict keys are
distinct, hence the no-repeated-keys side condition) and the members of a
set in any order (set members are distinct).  `trans` closes the relation
under chaining, so reorderings at different depths compose. -/
inductive HashEquiv : JValue → JValue → Prop where
  | jnull : HashEquiv .jnull .jnull
  | jbool (b : Bool) : HashEquiv (.jbool b) (.jbool b)
  | jint (n : Int) : HashEquiv (.jint n) (.jint n)
  | jstr (s : String) : HashEquiv (.jstr s) (.jstr s)
  | list_nil : HashEquiv (.jlist []) (.jlist [])
  | list_cons {x y : JValue} {xs ys : List JValue} :
      HashEquiv x y → HashEquiv (.jlist xs) (.jlist ys) →
      HashEquiv (.jlist (x :: xs)) (.jlist (y :: ys))
  | tuple_nil : HashEquiv (.jtuple []) (.jtuple [])
  | tuple_cons {x y : JValue} {xs ys : List JValue} :
      HashEquiv x y → HashEquiv (.jtuple xs) (.jtuple ys) →
      HashEquiv (.jtuple (x :: xs)) (.jtuple (y :: ys))
  | set_perm {ps qs : List JPrim} :
      ps.Perm qs → ps.Nodup → HashEquiv (.jset ps) (.jset qs)
  | dict_nil : HashEquiv (.jdict []) (.jdict [])
  | dict_cons {k : String} {v w : JValue} {es fs : List (String × JValue)} :
      HashEquiv v w → HashEquiv (.jdict es) (.jdict fs) →
      HashEquiv (.jdict ((k, v) :: es)) (.jdict ((k, w) :: fs))
  | dict_perm {es fs : List (String × JValue)} :
      es.Perm fs → (es.map Prod.fst).Nodup →
      HashEquiv (.jdict es) (.jdict fs)
  | trans {a b c : JValue} : HashEquiv a b → HashEquiv b c → HashEquiv a c

/-! ## Data model — the required tables (spec §6), modeled as row lists

UUIDs are modeled by a counter (`DB.next_id`) that also stands for the
`created_at` insertion order; timestamps themselves are not modeled. -/

/-- Row of `underwriting_processors`. -/
structure UnderwritingProcessorRow where
  id : String
  organization_id : String
  underwriting_id : String
  processor : String
  enabled : Bool
  auto : Bool
  current_executions_list : List Nat

/-- Row of `processor_executions`.  `created_seq` stands for the
`created_at` ordering the repository queries sort by. -/
structure ExecutionRow where
  id : Nat
  organization_id : String
  underwriting_id : String
  underwriting_processor_id : String
  processor : String
  status : String
  enabled : Bool
  payload : JDict
  payload_hash : String
  factors_delta : Option JDict
  run_cost_cents : Option Int
  failed_reason : Option String
  updated_execution_id : Option Nat
  created_seq : Nat

/-- Row of `factor`. -/
structure FactorRow where
  id : Nat
  organization_id : String
  underwriting_id : String
  factor_key : String
  value : JValue
  source : String
  status : String
  factor_hash : String
  underwriting_processor_id : String
  execution_id : Option Nat

/-- Document row of an underwriting, with the fields the payload formatter
reads. -/
structure DocumentRow where
  stipulation_type : String
  current_revision_id : Option String

/-- Underwriting snapshot as `get_underwriting_with_details` returns it:
the flat merchant field dict, the owners list, and the documents. -/
structure UnderwritingData where
  id : String
  merchant : JDict
  owners : List JValue
  documents : List DocumentRow

/-- The relational store. -/
structure DB where
  underwritings : List UnderwritingData
  underwriting_processors : List UnderwritingProcessorRow
  executions : List ExecutionRow
  factors : List FactorRow
  next_id : Nat

/-- Python dict merge `\x7b**a, **b\x7d`: the keys of `a` in order, with
values overridden by `b` where present, followed by the keys only `b` has. -/
def dictMerge (a b : JDict) : JDict :=
  (a.map (fun e => match dictGet e.1 b with
    | some v => (e.1, v)
    | none => e))
  ++ b.filter (fun e => (dictGet e.1 a).isNone)

namespace ExecutionRepository

/-- Model of `ExecutionRepository.get_execution_by_id`
(repositories/execution_repository.py lines 298-342): `SELECT ... WHERE id
= %s`. -/
def get_execution_by_id (execution_id : Nat) (db : DB) : Option ExecutionRow :=
  db.executions.find? (fun r => r.id == execution_id)

/-- Model of `ExecutionRepository.find_execution_by_hash` (lines 123-172):
rows of the processor instance with the given payload hash, `ORDER BY
created_at DESC LIMIT 1` — the match with the greatest creation order. -/
def find_execution_by_hash (underwriting_processor_id : String)
    (payload_hash : String) (db : DB) : Option ExecutionRow :=
  (db.executions.filter (fun r =>
      r.underwriting_processor_id == underwriting_processor_id
      && r.payload_hash == payload_hash)).foldl
    (fun acc r => match acc with
      | none => some r
      | some b => if b.created_seq < r.created_seq then some r else some b)
    none

/-- Model of `ExecutionRepository.create_execution` (lines 50-121): insert
a fresh row with `status='pending'`, `enabled=true` and the given payload
and hash; the generated UUID is the next counter value. -/
def create_execution (underwriting_id underwriting_processor_id organization_id
    processor_name : String) (payload : JDict) (payload_hash : String)
    (db : DB) : Nat × DB :=
  let execution_id := db.next_id
  (execution_id,
   { db with
       executions := db.executions ++
         [{ id := execution_id
            organization_id := organization_id
            underwriting_id := underwriting_id
            underwriting_processor_id := underwriting_processor_id
            processor := processor_name
            status := "pending"
            enabled := true
            payload := payload
            payload_hash := payload_hash
            factors_delta := none
            run_cost_cents := none
            failed_reason := none
            updated_execution_id := none
            created_seq := db.next_id }]
       next_id := db.next_id + 1 })

/-- Model of `ExecutionRepository.update_execution_status` (lines 178-237).
Only the fields the claims depend on are modeled: the status is always
set; `failed_reason` is guarded by Python truthiness (`if failed_reason:`),
so an empty or absent message leaves the column untouched.  The timestamp
and `failed_code` parameters are not modeled. -/
def update_execution_status (execution_id : Nat) (status : String)
    (failed_reason : Option String) (db : DB) : DB :=
  { db with
      executions := db.executions.map (fun r =>
        if r.id == execution_id then
          { r with
              status := status
              failed_reason := match failed_reason with
                | some s => if s == "" then r.failed_reason else some s
                | none => r.failed_reason }
        else r) }

/-- Model of `ExecutionRepository.save_execution_result` (lines 239-292):
set `status='completed'`, store `\x7b**factors, **output\x7d` in
`factors_delta` (NULL when that merge is empty) and the cost in
`run_cost_cents`. -/
def save_execution_result (execution_id : Nat) (output : JDict)
    (factors : JDict) (cost_cents : Int) (db : DB) : DB :=
  let combined_factors := dictMerge factors output
  { db with
      executions := db.executions.map (fun r =>
        if r.id == execution_id then
          { r with
              status := "completed"
              factors_delta := if combined_factors.isEmpty then none else some combined_factors
              run_cost_cents := some cost_cents }
        else r) }

/-- Model of `ExecutionRepository.mark_execution_superseded` (lines
459-486).  The SQL `UPDATE ... SET updated_execution_id = %s` is present in
the source only as text: the execute call is commented out behind a
`TODO`, and the method returns `False` without touching the store.  The
unit test `test_mark_execution_superseded_returns_false` pins this
not-implemented behaviour. -/
def mark_execution_superseded (old_execution_id new_execution_id : Nat)
    (db : DB) : Bool × DB :=
  (false, db)

/-- Model of `ExecutionRepository.activate_execution` (lines 512-535): a
stub — the UPDATE is commented out behind a `TODO` and the method returns
`False`. -/
def activate_execution (execution_id : Nat) (db : DB) : Bool × DB :=
  (false, db)

/-- Model of `ExecutionRepository.deactivate_execution` (lines 537-561): a
stub — the UPDATE is commented out behind a `TODO` and the method returns
`False`; the unit test `test_deactivate_execution_returns_false` pins it. -/
def deactivate_execution (execution_id : Nat) (db : DB) : Bool × DB :=
  (false, db)

/-- Model of `ExecutionRepository.get_active_executions` (lines 344-394):
the processor instance's executions with `enabled = true`, `status =
'completed'` and id in the instance's `current_executions_list` (the join
with `underwriting_processors`).  The `completed_at DESC` ordering is not
modeled (timestamps are not); rows keep table order. -/
def get_active_executions (underwriting_processor_id : String) (db : DB) :
    List ExecutionRow :=
  match db.underwriting_processors.find? (fun u => u.id == underwriting_processor_id) with
  | none => []
  | some up =>
    db.executions.filter (fun r =>
      r.underwriting_processor_id == underwriting_processor_id
      && r.enabled
      && r.status == "completed"
      && up.current_executions_list.contains r.id)

end ExecutionRepository

namespace ProcessorRepository

/-- Model of `ProcessorRepository.get_underwriting_processor_by_id`
(repositories/processor_repository.py lines 140-175): a stub — the SELECT
is present in the source only as text, the execute call is commented out
behind `# TODO: Execute query with db connection`, and the method returns
`None` for every input. -/
def get_underwriting_processor_by_id (underwriting_processor_id : String)
    (db : DB) : Option UnderwritingProcessorRow :=
  none

/-- Model of `ProcessorRepository.get_underwriting_processors` (lines
177-228): a stub — the SELECT with its `enabled_only`/`auto_only` filters
is only text behind the same `TODO`, and the method returns `[]` for every
input. -/
def get_underwriting_processors (underwriting_id : String)
    (enabled_only auto_only : Bool) (db : DB) : List UnderwritingProcessorRow :=
  []

/-- Model of `ProcessorRepository.update_current_executions_list` (lines
230-259): a stub — the UPDATE is commented out behind the same `TODO`, and
the method returns `False` without touching the store. -/
def update_current_executions_list (underwriting_processor_id : String)
    (execution_ids : List Nat) (db : DB) : Bool × DB :=
  (false, db)

end ProcessorRepository

namespace FactorRepository

/-- SQL equality of the `execution_id` column against a bound parameter:
when the parameter is NULL (`None`), `execution_id = NULL` is never true,
so the lookup matches nothing. -/
def sqlExecEq (column : Option Nat) (param : Option Nat) : Bool :=
  match param with
  | none => false
  | some e => column == some e

/-- Model of `FactorRepository.save_factors`
(repositories/factor_repository.py lines 55-195): for each factor, skip
`None` values; compute `factor_hash = f"\x7bfactor_key\x7d:\x7bjson.dumps(factor_value,
sort_keys=True)\x7d"` (the dumps equals `canonicalJson` — factor values come
from JSON columns and extraction outputs, which hold no sets or tuples);
look up the first active row with the same `(underwriting_id, factor_key,
execution_id)`; if found with the same hash do nothing, if found with a
different hash update value and hash in place, otherwise insert a fresh
active row.  The commit/rollback wrapper is modeled as always
succeeding. -/
def save_factors (organization_id underwriting_id underwriting_processor_id : String)
    (execution_id : Option Nat) (factors : JDict) (db : DB) : Bool × DB :=
  let db' := factors.foldl (fun d e =>
    let (factor_key, factor_value) := e
    match factor_value with
    | .jnull => d
    | _ =>
      let factor_hash := factor_key ++ ":" ++ canonicalJson factor_value
      match d.factors.find? (fun f =>
          f.underwriting_id == underwriting_id
          && f.factor_key == factor_key
          && sqlExecEq f.execution_id execution_id
          && f.status == "active") with
      | some existing_factor =>
        if existing_factor.factor_hash == factor_hash then d
        else
          { d with factors := d.factors.map (fun f =>
              if f.id == existing_factor.id then
                { f with value := factor_value, factor_hash := factor_hash }
              else f) }
      | none =>
        { d with
            factors := d.factors ++
              [{ id := d.next_id
                 organization_id := organization_id
                 underwriting_id := underwriting_id
                 factor_key := factor_key
                 value := factor_value
                 source := "processor"
                 status := "active"
                 factor_hash := factor_hash
                 underwriting_processor_id := underwriting_processor_id
                 execution_id := execution_id }]
            next_id := d.next_id + 1 }) db
  (true, db')

/-- Model of `FactorRepository.clear_factors` (lines 272-311): set
`status='deleted'` on every active factor row of the given underwriting
**processor** — the filter is by `underwriting_processor_id`, not by
`execution_id`. -/
def clear_factors (underwriting_id underwriting_processor_id : String)
    (db : DB) : Bool × DB :=
  (true,
   { db with factors := db.factors.map (fun f =>
       if f.underwriting_id == underwriting_id
          && f.underwriting_processor_id == underwriting_processor_id
          && f.status == "active" then
         { f with status := "deleted" }
       else f) })

end FactorRepository

/-! ## Processor classes and the registry -/

/-- Processor kind (`ProcessorType` in models.py). -/
inductive ProcessorType where
  | application
  | stipulation
  | document
deriving DecidableEq

/-- Execution status (`ExecutionStatus` in models.py). -/
inductive ExecutionStatus where
  | pending
  | running
  | completed
  | failed
  | cancelled
deriving DecidableEq

/-- Static attributes of a registered processor class that the services
read: `PROCESSOR_TYPE`, `PROCESSOR_TRIGGERS`, and the static `consolidate`
method.  `consolidate` varies per subclass (the base default reads the
last element's output), so the model carries it as the function of the
active execution rows that `consolidation` calls it as. -/
structure ProcessorClass where
  processor_type : ProcessorType
  triggers : Triggers
  consolidate : List ExecutionRow → JDict

/-- The processor registry: name to class (services/registry.py). -/
abbrev Registry := List (String × ProcessorClass)

/-- Registry lookup by processor name. -/
def registryGet (registry : Registry) (name : String) : Option ProcessorClass :=
  (registry.find? (fun e => e.1 == name)).map (fun e => e.2)

/-! ## Payload formatting (utils/payload.py) -/

/-- The merchant column to dot-notation mapping of
`_format_application_payload` (utils/payload.py lines 68-78). -/
def field_mapping : List (String × String) :=
  [("name", "merchant.name"), ("ein", "merchant.ein"),
   ("industry", "merchant.industry"), ("email", "merchant.email"),
   ("phone", "merchant.phone"), ("website", "merchant.website"),
   ("entity_type", "merchant.entity_type"),
   ("incorporation_date", "merchant.incorporation_date"),
   ("state_of_incorporation", "merchant.state_of_incorporation")]

/-- Model of `_format_application_payload` (utils/payload.py lines 43-99):
returns `None` when no `application_form` triggers are declared; otherwise
builds the dot-notation form from the merchant fields that are declared as
triggers and are neither null nor the empty string, and returns one payload
with the form and the owners list — or the empty list when no trigger
field has data. -/
def format_application_payload (processor_triggers : Triggers)
    (underwriting_data : UnderwritingData) : Option (List JDict) :=
  let trigger_fields := processor_triggers.application_form.getD []
  if trigger_fields.isEmpty then none
  else
    let merchant := underwriting_data.merchant
    let application_form : JDict := field_mapping.filterMap (fun fm =>
      let (field, dot_key) := fm
      if trigger_fields.contains dot_key then
        match dictGet field merchant with
        | some .jnull => none
        | some (.jstr "") => none
        | some v => some (dot_key, v)
        | none => none
      else none)
    let has_data := trigger_fields.any (fun f => (dictGet f application_form).isSome)
    if !has_data then some []
    else some [[("application_form", .jdict application_form),
                ("owners_list", .jlist underwriting_data.owners)]]

/-- Model of `_format_stipulation_payload` (utils/payload.py lines
102-147): one payload grouping the current revision ids of all documents
of the first declared stipulation type; the empty list when there are no
triggers, no matching documents, or no (truthy) revision ids. -/
def format_stipulation_payload (processor_triggers : Triggers)
    (underwriting_data : UnderwritingData) : Option (List JDict) :=
  match processor_triggers.documents_list.getD [] with
  | [] => some []
  | stipulation_type :: _ =>
    let matching_docs := underwriting_data.documents.filter
      (fun d => d.stipulation_type == stipulation_type)
    if matching_docs.isEmpty then some []
    else
      let revision_ids := matching_docs.filterMap (fun d =>
        match d.current_revision_id with
        | some rid => if rid == "" then none else some rid
        | none => none)
      if revision_ids.isEmpty then some []
      else some [[("revision_id", .jlist (revision_ids.map .jstr))]]

/-- Model of `_format_document_payload` (utils/payload.py lines 150-191):
one payload per matching document with a truthy current revision id. -/
def format_document_payload (processor_triggers : Triggers)
    (underwriting_data : UnderwritingData) : Option (List JDict) :=
  match processor_triggers.documents_list.getD [] with
  | [] => some []
  | stipulation_type :: _ =>
    let matching_docs := underwriting_data.documents.filter
      (fun d => d.stipulation_type == stipulation_type)
    if matching_docs.isEmpty then some []
    else
      some ((matching_docs.filterMap (fun d =>
        match d.current_revision_id with
        | some rid => if rid == "" then none else some rid
        | none => none)).map (fun rid => [("revision_id", .jstr rid)]))

/-- Model of `format_payload_list` (utils/payload.py lines 12-40): dispatch
on the processor kind.  `none` models Python `None` (only the application
branch produces it); `some []` models the empty list. -/
def format_payload_list (processor_type : ProcessorType)
    (processor_triggers : Triggers) (underwriting_data : UnderwritingData) :
    Option (List JDict) :=
  match processor_type with
  | .application => format_application_payload processor_triggers underwriting_data
  | .stipulation => format_stipulation_payload processor_triggers underwriting_data
  | .document => format_document_payload processor_triggers underwriting_data

/-! ## The processor pipeline (base_processor.py) -/

namespace BaseProcessor

/-- Kinds of the exception taxonomy (exceptions.py).  `other` stands for
any exception outside the taxonomy (a `BaseException` the pipeline did not
declare). -/
inductive ErrKind where
  | prevalidation
  | input_validation
  | transformation
  | factor_extraction
  | data_transformation
  | api
  | result_validation
  | persistence
  | configuration
  | other
deriving DecidableEq

/-- An exception value: its class kind and its `str(e)` message.  The extra
payload of `ApiError` (`api_name`, `status_code`, `is_retryable`) plays no
role in the pipeline's control flow and is not modeled. -/
structure PyError where
  kind : ErrKind
  msg : String

/-- Result of `validate_input` / `validate_output` (models.py
`ValidationResult`). -/
structure ValidationResult where
  is_valid : Bool
  errors : List String

/-- Result envelope of one pipeline run (models.py `ProcessingResult`,
restricted to the fields the claims mention). -/
structure ProcessingResult where
  status : ExecutionStatus
  output : JDict
  total_cost_cents : Int
  error_message : Option String
  error_type : Option String
  error_phase : Option String

/-- Model of `ProcessingResult.is_successful` (models.py lines 71-73). -/
def ProcessingResult.is_successful (r : ProcessingResult) : Bool :=
  r.status == .completed

/-- Behaviour of a concrete processor subclass: the four abstract methods
plus the `prevalidate_input` hook, each returning a value or the exception
it raises.  `T` is the subclass's transformed-data type. -/
structure ProcessorImpl (T : Type) where
  prevalidate_input : JDict → Except PyError Unit
  transform_input : JDict → Except PyError T
  validate_input : T → Except PyError ValidationResult
  extract : T → Except PyError JDict
  validate_output : JDict → Except PyError ValidationResult

/-- Model of `BaseProcessor._phase_preextraction` (base_processor.py lines
435-465): prevalidate, transform, validate; an invalid validation result
raises `InputValidationError` with the joined error list. -/
def phase_preextraction {T : Type} (P : ProcessorImpl T) (payload : JDict) :
    Except PyError T := do
  let _ ← P.prevalidate_input payload
  let transformed_data ← P.transform_input payload
  let validation_result ← P.validate_input transformed_data
  if !validation_result.is_valid then
    throw { kind := .input_validation,
            msg := "Input validation failed: " ++
                   String.intercalate ", " validation_result.errors }
  else
    pure transformed_data

/-- Model of `BaseProcessor._phase_extraction` (lines 467-483). -/
def phase_extraction {T : Type} (P : ProcessorImpl T) (transformed_data : T) :
    Except PyError JDict :=
  P.extract transformed_data

/-- Model of `BaseProcessor._phase_postextraction` (lines 485-506): an
invalid validation result raises `ResultValidationError`. -/
def phase_postextraction {T : Type} (P : ProcessorImpl T) (output : JDict) :
    Except PyError JDict := do
  let validation_result ← P.validate_output output
  if !validation_result.is_valid then
    throw { kind := .result_validation,
            msg := "Output validation failed: " ++
                   String.intercalate ", " validation_result.errors }
  else
    pure output

/-- Phase attributed to an exception by the `except` clauses of
`BaseProcessor.execute` (base_processor.py lines 565-588).  The clauses
match on the exception class, so the attribution depends only on the kind,
wherever the exception was raised: `(PrevalidationError,
InputValidationError, TransformationError)` map to `pre-extraction`,
`FactorExtractionError` to `extraction`, `ResultValidationError` to
`post-extraction`, and everything else — including `ApiError` and
`DataTransformationError`, the two other exceptions `extract` declares —
falls through to the `BaseException` catch-all, `unknown`. -/
def error_phase_of (e : PyError) : String :=
  match e.kind with
  | .prevalidation => "pre-extraction"
  | .input_validation => "pre-extraction"
  | .transformation => "pre-extraction"
  | .factor_extraction => "extraction"
  | .result_validation => "post-extraction"
  | _ => "unknown"

/-- Message recorded by the `except` clauses: `str(e)` in the five named
clauses, `f"Unexpected error: \x7bstr(e)\x7d"` in the catch-all. -/
def error_message_of (e : PyError) : String :=
  match e.kind with
  | .prevalidation => e.msg
  | .input_validation => e.msg
  | .transformation => e.msg
  | .factor_extraction => e.msg
  | .result_validation => e.msg
  | _ => "Unexpected error: " ++ e.msg

/-- Class name recorded as `error_type` (`e.__class__.__name__`); for an
exception outside the taxonomy the model writes `Exception` for the
arbitrary class name. -/
def error_type_of (e : PyError) : String :=
  match e.kind with
  | .prevalidation => "PrevalidationError"
  | .input_validation => "InputValidationError"
  | .transformation => "TransformationError"
  | .factor_extraction => "FactorExtractionError"
  | .data_transformation => "DataTransformationError"
  | .api => "ApiError"
  | .result_validation => "ResultValidationError"
  | .persistence => "PersistenceError"
  | .configuration => "ConfigurationError"
  | .other => "Exception"

/-- Failed result as `execute` builds it: `status` stays `FAILED`, the
`output` local keeps whatever value it had when the exception surfaced,
and the error fields come from the matching `except` clause.  Cost
accumulation (`_add_cost` mutating the instance during `extract`) is not
modeled; no claim concerns the cost of `execute`'s envelope. -/
def mk_failed (output : JDict) (e : PyError) : ProcessingResult :=
  { status := .failed
    output := output
    total_cost_cents := 0
    error_message := some (error_message_of e)
    error_type := some (error_type_of e)
    error_phase := some (error_phase_of e) }

/-- Model of `BaseProcessor.execute` (base_processor.py lines 508-620): the
three phases in order inside one `try`; the first exception ends the run
and is attributed by `error_phase_of`; when post-extraction fails the
`output` local still holds the extraction output (lines 550-554 assign it
before the validation call). -/
def execute {T : Type} (P : ProcessorImpl T) (payload : JDict) :
    ProcessingResult :=
  match phase_preextraction P payload with
  | .error e => mk_failed [] e
  | .ok transformed_data =>
    match phase_extraction P transformed_data with
    | .error e => mk_failed [] e
    | .ok output =>
      match phase_postextraction P output with
      | .error e => mk_failed output e
      | .ok validated_output =>
        { status := .completed
          output := validated_output
          total_cost_cents := 0
          error_message := none
          error_type := none
          error_phase := none }

end BaseProcessor

/-! ## Filtration (services/filtration.py) -/

namespace Filtration

/-- Model of `generate_execution` (services/filtration.py lines 307-401):
fetch the processor config, hash the payload, reuse the latest execution
with the same hash unless `duplicate` is set, otherwise insert a fresh
pending row.  The hash is computed by `generate_payload_hash(payload)`
with no triggers argument (line 344), so the full payload is hashed.  The
config fetch goes through the stubbed
`ProcessorRepository.get_underwriting_processor_by_id` and yields `None`;
the reuse path returns the existing id before ever touching the config,
but the create path subscripts it
(`processor_config['underwriting_id']`, line 357), which on `None`
raises `TypeError` — modeled as the `Except` error below — so no row is
inserted. -/
def generate_execution (underwriting_processor_id : String) (payload : JDict)
    (duplicate : Bool) (db : DB) : Except String (Nat × DB) :=
  let processor_config := ProcessorRepository.get_underwriting_processor_by_id
    underwriting_processor_id db
  let payload_hash := generate_payload_hash payload
  let existing := ExecutionRepository.find_execution_by_hash
    underwriting_processor_id payload_hash db
  match existing, duplicate with
  | some row, false => .ok (row.id, db)
  | _, _ =>
    match processor_config with
    | none => .error "TypeError: NoneType object is not subscriptable"
    | some config =>
      .ok (ExecutionRepository.create_execution config.underwriting_id
        underwriting_processor_id config.organization_id
        config.processor payload payload_hash db)

/-- Model of `prepare_processor` (services/filtration.py lines 108-304):
format the payload list; on `None` or `[]` return `None`; generate one
execution per payload, propagating any exception `generate_execution`
raises; diff against `current_executions_list`; when both the new and the
removed lists are empty return `None` (lines 217-256 — the function's own
docstring promises the empty list in that case); otherwise call
`update_current_executions_list` (the stub, so the store is unchanged)
and return only the new ids. -/
def prepare_processor (underwriting_processor_id : String)
    (underwriting_data : UnderwritingData)
    (processor_config : UnderwritingProcessorRow)
    (registry : Registry) (duplicate : Bool) (db : DB) :
    Except String (Option (List Nat) × DB) :=
  match registryGet registry processor_config.processor with
  | none => .ok (none, db)
  | some processor_class =>
    match format_payload_list processor_class.processor_type
        processor_class.triggers underwriting_data with
    | none => .ok (none, db)
    | some [] => .ok (none, db)
    | some (p :: ps) =>
      match (p :: ps).foldl
        (fun acc payload =>
          match acc with
          | .error e => .error e
          | .ok (ids, d) =>
            match generate_execution underwriting_processor_id payload
                duplicate d with
            | .error e => .error e
            | .ok (execution_id, d₂) => .ok (ids ++ [execution_id], d₂))
        (.ok (([] : List Nat), db) : Except String (List Nat × DB)) with
      | .error e => .error e
      | .ok (execution_list, db₁) =>
        let current_executions := processor_config.current_executions_list
        let new_exe_list := execution_list.filter
          (fun e => !current_executions.contains e)
        let del_exe_list := current_executions.filter
          (fun e => !execution_list.contains e)
        if new_exe_list.isEmpty && del_exe_list.isEmpty then
          .ok (none, db₁)
        else
          .ok (some new_exe_list,
            (ProcessorRepository.update_current_executions_list
              underwriting_processor_id execution_list db₁).2)

/-- Output of the filtration stage. -/
structure FiltrationResult where
  processor_list : List String
  execution_list : List Nat
  deriving DecidableEq

/-- Model of `filtration` (services/filtration.py lines 16-105): load the
underwriting, load its processors with `enabled=true, auto=true` — via
the stubbed `ProcessorRepository.get_underwriting_processors`, which
returns `[]`, so the loop body never runs — and call `prepare_processor`
for each; a `None` result skips the processor, a list result adds the
processor to `processor_list` (for consolidation) and its elements to
`execution_list` (for execution). -/
def filtration (underwriting_id : String) (registry : Registry) (db : DB) :
    Except String (FiltrationResult × DB) :=
  match db.underwritings.find? (fun u => u.id == underwriting_id) with
  | none => .ok ({ processor_list := [], execution_list := [] }, db)
  | some underwriting =>
    let processors := ProcessorRepository.get_underwriting_processors
      underwriting_id true true db
    processors.foldl
      (fun acc processor_config =>
        match acc with
        | .error e => .error e
        | .ok (r, d) =>
          match prepare_processor processor_config.id underwriting
              processor_config registry false d with
          | .error e => .error e
          | .ok (none, d₂) => .ok (r, d₂)
          | .ok (some l, d₂) =>
            .ok ({ processor_list := r.processor_list ++ [processor_config.id]
                   execution_list := r.execution_list ++ l }, d₂))
      (.ok (({ processor_list := [], execution_list := [] } : FiltrationResult), db)
        : Except String (FiltrationResult × DB))

end Filtration

/-! ## Execution (services/execution.py) -/

namespace ExecutionService

/-- Launch filter of the execution stage (services/execution.py lines
51-70): each listed execution id is loaded; a missing row is skipped; a
loaded row is submitted to the worker pool iff its status is `pending` or
`failed`.  The returned list is the submitted rows in input order. -/
def execution_launch_list (execution_list : List Nat) (db : DB) :
    List ExecutionRow :=
  execution_list.filterMap (fun execution_id =>
    match ExecutionRepository.get_execution_by_id execution_id db with
    | none => none
    | some exec_data =>
      if exec_data.status == "pending" || exec_data.status == "failed" then
        some exec_data
      else none)

/-- What the body of `run_single_execution`'s `try` block comes to once the
row's status has been set to `running`: either the `ProcessingResult`
returned by `processor.execute` (which itself catches every exception), or
an exception raised elsewhere in the block — registry lookup, payload
reconstruction, a `BaseException` escaping the pipeline — carrying its
`str(e)` message. -/
inductive ProcOutcome where
  | result (r : BaseProcessor.ProcessingResult)
  | raised (msg : String)

/-- Per-run summary entry the stage collects. -/
structure RunResult where
  success : Bool
  execution_id : Nat
  error : Option String

/-- Model of `run_single_execution` (services/execution.py lines 85-266):
set the row to `running`; on a successful result persist the output as
`factors_delta` with the cost and `status='completed'`
(`save_execution_result`); on a failed result or any exception persist
`status='failed'` with the message as `failed_reason`
(`update_execution_status`).  Repository writes are modeled as always
succeeding. -/
def run_single_execution (execution : ExecutionRow) (outcome : ProcOutcome)
    (db : DB) : RunResult × DB :=
  let db₁ := ExecutionRepository.update_execution_status execution.id
    "running" none db
  match outcome with
  | .raised msg =>
    ({ success := false, execution_id := execution.id, error := some msg },
     ExecutionRepository.update_execution_status execution.id "failed"
       (some msg) db₁)
  | .result result =>
    if result.is_successful then
      ({ success := true, execution_id := execution.id, error := none },
       ExecutionRepository.save_execution_result execution.id result.output
         [] result.total_cost_cents db₁)
    else
      ({ success := false, execution_id := execution.id,
         error := result.error_message },
       ExecutionRepository.update_execution_status execution.id "failed"
         result.error_message db₁)

end ExecutionService

/-! ## The duplicated execution stage (orchestration_service.py) -/

namespace OrchestrationService

/-- Launch filter of `OrchestrationService._execution`
(orchestration_service.py lines 493-532), the duplicated copy of the
execution stage: only rows whose status is exactly `pending` are
submitted; every other status — including `failed` — is skipped with a log
line (line 527: `if execution['status'] == 'pending':`). -/
def execution_launch_list (execution_list : List Nat) (db : DB) :
    List ExecutionRow :=
  execution_list.filterMap (fun execution_id =>
    match ExecutionRepository.get_execution_by_id execution_id db with
    | none => none
    | some execution =>
      if execution.status == "pending" then some execution else none)

end OrchestrationService

/-! ## Consolidation (services/consolidation.py) -/

namespace Consolidation

/-- Per-processor entry of the consolidation summary. -/
structure ConsolidationEntry where
  success : Bool
  underwriting_processor_id : String
  processor : String
  factors : JDict
  execution_count : Nat

/-- Summary the consolidation stage returns. -/
structure ConsolidationResult where
  consolidated : Nat
  results : List ConsolidationEntry

/-- Model of `consolidation` (services/consolidation.py lines 14-162).
For each listed processor instance the service loads the processor config
and the active executions, resolves the class, calls its static
`consolidate` and collects the consolidated factor map into the summary —
and stops there: the write to the factor table is a `TODO` in the source
(lines 120-122, `# TODO: Save factors to database via factor repository`
followed by a print of what would be saved), so the store is returned
untouched.  `FactorRepository.save_factors` has no caller anywhere in the
source tree.  A missing config or unregistered class is skipped
(`continue`, lines 52-54) — and the config load goes through the stubbed
`ProcessorRepository.get_underwriting_processor_by_id`, which returns
`None` for every input, so at run time every listed processor is skipped
and the summary is empty. -/
def consolidation (processor_list : List String) (registry : Registry)
    (db : DB) : ConsolidationResult × DB :=
  let results := processor_list.foldl
    (fun acc underwriting_processor_id =>
      match ProcessorRepository.get_underwriting_processor_by_id
          underwriting_processor_id db with
      | none => acc
      | some processor_config =>
        let active_executions := ExecutionRepository.get_active_executions
          underwriting_processor_id db
        match registryGet registry processor_config.processor with
        | none => acc
        | some processor_class =>
          let consolidated_factors := processor_class.consolidate active_executions
          acc ++ [{ success := true
                    underwriting_processor_id := underwriting_processor_id
                    processor := processor_config.processor
                    factors := consolidated_factors
                    execution_count := active_executions.length }])
    ([] : List ConsolidationEntry)
  ({ consolidated := (results.filter (fun r => r.success)).length
     results := results }, db)

end Consolidation

/-! ## Subscriber (src/subscriber.py) -/

/-- Topics the subscriber subscribes to: the keys of the `topics` dict in
`main` (src/subscriber.py lines 302-307).  Only workflows 1-3 are wired;
`underwriting.execution.activate` (W4) and
`underwriting.execution.disable` (W5) have no subscription and no
handler. -/
def subscriber_topics : List String :=
  ["underwriting.updated", "document.analyzed",
   "underwriting.processor.execute", "underwriting.processor.consolidation"]

/-! ## Concrete stores and processors used to evaluate the code -/

/-- Processor whose pre- and post-extraction phases succeed and whose
`extract` raises the given exception. -/
def extract_raises (e : BaseProcessor.PyError) :
    BaseProcessor.ProcessorImpl Unit :=
  { prevalidate_input := fun _ => .ok ()
    transform_input := fun _ => .ok ()
    validate_input := fun _ => .ok { is_valid := true, errors := [] }
    extract := fun _ => .error e
    validate_output := fun _ => .ok { is_valid := true, errors := [] } }

/-- Processor whose `transform_input` raises `TransformationError`. -/
def transform_raises : BaseProcessor.ProcessorImpl Unit :=
  { prevalidate_input := fun _ => .ok ()
    transform_input := fun _ => .error { kind := .transformation, msg := "bad input" }
    validate_input := fun _ => .ok { is_valid := true, errors := [] }
    extract := fun _ => .ok [("f_x", .jint 1)]
    validate_output := fun _ => .ok { is_valid := true, errors := [] } }

/-- A `failed` execution row. -/
def c7_failed_row : ExecutionRow :=
  { id := 5, organization_id := "org", underwriting_id := "uw"
    underwriting_processor_id := "up1", processor := "test_application_processor"
    status := "failed", enabled := true, payload := [], payload_hash := "h5"
    factors_delta := none, run_cost_cents := none
    failed_reason := some "earlier failure", updated_execution_id := none
    created_seq := 5 }

/-- Store holding only the `failed` row above. -/
def c7_db : DB :=
  { underwritings := [], underwriting_processors := []
    executions := [c7_failed_row], factors := [], next_id := 6 }

/-- A `pending` execution row about to be launched. -/
def c10_row : ExecutionRow :=
  { id := 9, organization_id := "org", underwriting_id := "uw"
    underwriting_processor_id := "up1", processor := "test_application_processor"
    status := "pending", enabled := true, payload := [], payload_hash := "h9"
    factors_delta := none, run_cost_cents := none, failed_reason := none
    updated_execution_id := none, created_seq := 9 }

/-- Store holding only the `pending` row above. -/
def c10_db : DB :=
  { underwritings := [], underwriting_processors := []
    executions := [c10_row], factors := [], next_id := 10 }

/-- Two active factor rows of one processor instance, attributed to two
different executions. -/
def c8_db : DB :=
  { underwritings := [], underwriting_processors := [], executions := []
    factors :=
      [{ id := 11, organization_id := "org", underwriting_id := "uw"
         factor_key := "f_license_ok", value := .jbool true, source := "processor"
         status := "active", factor_hash := "hash_a"
         underwriting_processor_id := "up1", execution_id := some 1 },
       { id := 12, organization_id := "org", underwriting_id := "uw"
         factor_key := "f_license_no", value := .jstr "D123", source := "processor"
         status := "active", factor_hash := "hash_b"
         underwriting_processor_id := "up1", execution_id := some 2 }]
    next_id := 13 }

/-- Payload whose hash an execution row already carries. -/
def c2_payload : JDict :=
  [("application_form", .jdict [("merchant.name", .jstr "Acme")])]

/-- Completed execution holding `c2_payload` and its hash. -/
def c2_old_row : ExecutionRow :=
  { id := 1, organization_id := "org", underwriting_id := "uw"
    underwriting_processor_id := "up1", processor := "test_application_processor"
    status := "completed", enabled := true, payload := c2_payload
    payload_hash := generate_payload_hash c2_payload
    factors_delta := none, run_cost_cents := none, failed_reason := none
    updated_execution_id := none, created_seq := 1 }

/-- The processor instance owning `c2_old_row`. -/
def c2_up_row : UnderwritingProcessorRow :=
  { id := "up1", organization_id := "org", underwriting_id := "uw"
    processor := "test_application_processor", enabled := true, auto := true
    current_executions_list := [1] }

/-- Store for the duplicate-execution scenario. -/
def c2_db : DB :=
  { underwritings := [], underwriting_processors := [c2_up_row]
    executions := [c2_old_row], factors := [], next_id := 2 }

/-- Completed, enabled execution with a one-factor delta. -/
def c1_exec_row : ExecutionRow :=
  { id := 1, organization_id := "org", underwriting_id := "uw"
    underwriting_processor_id := "up1", processor := "test_application_processor"
    status := "completed", enabled := true, payload := [], payload_hash := "h1"
    factors_delta := some [("f_x", .jint 1)], run_cost_cents := some 5
    failed_reason := none, updated_execution_id := none, created_seq := 1 }

/-- The processor instance whose current list holds `c1_exec_row`. -/
def c1_up_row : UnderwritingProcessorRow :=
  { id := "up1", organization_id := "org", underwriting_id := "uw"
    processor := "test_application_processor", enabled := true, auto := true
    current_executions_list := [1] }

/-- Registry with one application processor whose `consolidate` returns the
last active execution's `factors_delta` (the shape of the overridden
`consolidate` in processors/test_processor.py). -/
def c1_registry : Registry :=
  [("test_application_processor",
    { processor_type := .application
      triggers := { application_form := some ["merchant.name"] }
      consolidate := fun execs => (execs.getLast?.bind (fun r => r.factors_delta)).getD [] })]

/-- Store in which consolidating `up1` yields one non-empty factor map. -/
def c1_db : DB :=
  { underwritings := [], underwriting_processors := [c1_up_row]
    executions := [c1_exec_row], factors := [], next_id := 2 }

/-- Underwriting snapshot with one merchant field and no documents. -/
def c3_data : UnderwritingData :=
  { id := "uw", merchant := [("name", .jstr "Test Merchant Inc")]
    owners := [], documents := [] }

/-- The payload `format_payload_list` produces from `c3_data` for a
processor triggered on `merchant.name`. -/
def c3_payload : JDict :=
  [("application_form", .jdict [("merchant.name", .jstr "Test Merchant Inc")]),
   ("owners_list", .jlist [])]

/-- Processor instance whose current list already holds the execution of
`c3_payload`. -/
def c3_up_row : UnderwritingProcessorRow :=
  { id := "up1", organization_id := "org", underwriting_id := "uw"
    processor := "test_application_processor", enabled := true, auto := true
    current_executions_list := [1] }

/-- Completed execution of `c3_payload` with its full-payload hash. -/
def c3_exec_row : ExecutionRow :=
  { id := 1, organization_id := "org", underwriting_id := "uw"
    underwriting_processor_id := "up1", processor := "test_application_processor"
    status := "completed", enabled := true, payload := c3_payload
    payload_hash := generate_payload_hash c3_payload
    factors_delta := some [("f_merchant_name", .jstr "Test Merchant Inc")]
    run_cost_cents := some 0, failed_reason := none
    updated_execution_id := none, created_seq := 1 }

/-- Registry for the replay scenario. -/
def c3_registry : Registry :=
  [("test_application_processor",
    { processor_type := .application
      triggers := { application_form := some ["merchant.name"] }
      consolidate := fun execs => (execs.getLast?.bind (fun r => r.factors_delta)).getD [] })]

/-- Store in which a re-run of filtration finds nothing new and nothing
removed for `up1`. -/
def c3_db : DB :=
  { underwritings := [c3_data], underwriting_processors := [c3_up_row]
    executions := [c3_exec_row], factors := [], next_id := 2 }

/-- Triggers declaring only `merchant.name`. -/
def c4_triggers : Triggers := { application_form := some ["merchant.name"] }

/-- Two payloads that agree on every trigger-declared field and differ only
in the owners list, which no trigger declares. -/
def c4_payload_a : JDict :=
  [("application_form", .jdict [("merchant.name", .jstr "Acme")]),
   ("owners_list", .jlist [.jstr "owner-1"])]

/-- Second payload of the pair (see `c4_payload_a`). -/
def c4_payload_b : JDict :=
  [("application_form", .jdict [("merchant.name", .jstr "Acme")]),
   ("owners_list", .jlist [.jstr "owner-2"])]

/-- Processor instance the two payloads are generated for. -/
def c4_up_row : UnderwritingProcessorRow :=
  { id := "up1", organization_id := "org", underwriting_id := "uw"
    processor := "test_application_processor", enabled := true, auto := true
    current_executions_list := [] }

/-- Completed execution of `c4_payload_a` carrying its full-payload hash —
the hash `generate_execution` actually dedups on. -/
def c4_exec_row : ExecutionRow :=
  { id := 1, organization_id := "org", underwriting_id := "uw"
    underwriting_processor_id := "up1", processor := "test_application_processor"
    status := "completed", enabled := true, payload := c4_payload_a
    payload_hash := generate_payload_hash c4_payload_a
    factors_delta := none, run_cost_cents := none, failed_reason := none
    updated_execution_id := none, created_seq := 1 }

/-- Store holding the execution of `c4_payload_a`. -/
def c4_db : DB :=
  { underwritings := [], underwriting_processors := [c4_up_row]
    executions := [c4_exec_row], factors := [], next_id := 2 }

/-! ## Theorems -/

/-- C1: the claim says consolidation upserts every consolidated factor into
the Factor table keyed by `(underwriting_id, factor_key, execution_id)`.
The code writes nothing, twice over.  First, the config load at the top of
the per-processor loop goes through the stubbed
`ProcessorRepository.get_underwriting_processor_by_id`, which returns
`None` for every input, so every listed processor is skipped (`continue`)
before `consolidate` is even called: consolidating `up1` on the store
below — which holds a completed, enabled execution with a non-empty
`factors_delta` — produces an empty summary and leaves the store
untouched.  Second, even on the path past the skip the write is a `TODO`
in the source (lines 120-122) and `FactorRepository.save_factors` — which
implements exactly the described no-op / update / insert upsert — has no
caller anywhere in the tree.  Evaluated: the `save_factors` call the claim
describes would insert an active row, then no-op on an identical re-save,
then update in place on a changed value. -/
theorem C1_consolidation_writes_no_factors :
    Consolidation.consolidation ["up1"] c1_registry c1_db
      = ({ consolidated := 0, results := [] }, c1_db)
    ∧ ProcessorRepository.get_underwriting_processor_by_id "up1" c1_db = none
    ∧ c1_db.factors = []
    ∧ ((FactorRepository.save_factors "org" "uw" "up1" (some 1)
          [("f_x", .jint 1)] c1_db).2.factors.map
        (fun f => (f.underwriting_id, f.factor_key, f.execution_id, f.status, f.value)))
      = [("uw", "f_x", some 1, "active", .jint 1)]
    ∧ (FactorRepository.save_factors "org" "uw" "up1" (some 1) [("f_x", .jint 1)]
        (FactorRepository.save_factors "org" "uw" "up1" (some 1)
          [("f_x", .jint 1)] c1_db).2).2
      = (FactorRepository.save_factors "org" "uw" "up1" (some 1)
          [("f_x", .jint 1)] c1_db).2
    ∧ ((FactorRepository.save_factors "org" "uw" "up1" (some 1) [("f_x", .jint 2)]
        (FactorRepository.save_factors "org" "uw" "up1" (some 1)
          [("f_x", .jint 1)] c1_db).2).2.factors.map (fun f => (f.id, f.value)))
      = [(2, .jint 2)] :=
  ⟨rfl, rfl, rfl, rfl, rfl, rfl⟩

/-- C2: the claim says `generateExecution` with `duplicate=true` inserts a
clone of the matching execution and sets the old row's
`updated_execution_id` to the new id.  The code does neither.  With
`duplicate=true` the reuse early-return is skipped and the create path
runs — which subscripts the processor config fetched from the stubbed
`ProcessorRepository.get_underwriting_processor_by_id` (always `None`), so
the call raises `TypeError` and inserts nothing; no clone exists to link
to.  The contrast conjunct shows the same store and payload with
`duplicate=false` returning the existing id `1` through the reuse path,
which returns before touching the config.  And the linking primitive the
claim describes, `ExecutionRepository.mark_execution_superseded`, is
itself a stub returning `False` without a write (SQL commented out behind
a TODO, pinned by `test_mark_execution_superseded_returns_false`) — no
path in the tree can set `updated_execution_id`.  The old row keeps
`updated_execution_id = NULL` throughout. -/
theorem C2_duplicate_never_links_old_row :
    Filtration.generate_execution "up1" c2_payload true c2_db
      = .error "TypeError: NoneType object is not subscriptable"
    ∧ Filtration.generate_execution "up1" c2_payload false c2_db
      = .ok (1, c2_db)
    ∧ ExecutionRepository.mark_execution_superseded 1 2 c2_db = (false, c2_db)
    ∧ (c2_db.executions.map (fun r => (r.id, r.updated_execution_id)))
      = [(1, none)] :=
  ⟨rfl, rfl, rfl, rfl⟩

/-- C3: with unchanged data, the desired execution set equals
`currentExecutionsList`; the claim (and `prepare_processor`'s own
docstring) says the empty list is returned so the processor still
participates in consolidation and a replay selects every eligible
processor while running nothing.  The code returns `None` in that branch
(services/filtration.py lines 217-256), so filtration skips the processor:
on the replay store below, `prepare_processor` generates the execution of
`c3_payload` — reused through the hash match, before the stubbed config is
ever touched — finds nothing new and nothing removed, and yields `None`.
The replay `filtration` itself selects no processor at all, both because a
`None` result is skipped and because the stubbed
`ProcessorRepository.get_underwriting_processors` lists no processors to
begin with. -/
theorem C3_unchanged_processor_skipped :
    Filtration.prepare_processor "up1" c3_data c3_up_row c3_registry false c3_db
      = .ok (none, c3_db)
    ∧ Filtration.filtration "uw" c3_registry c3_db
      = .ok ({ processor_list := [], execution_list := [] }, c3_db) :=
  ⟨rfl, rfl⟩

/-- C4: the claim says the dedup hash of `generateExecution` is
`hash(payload, processor.triggers)`, so payloads agreeing on all
trigger-declared fields share one execution.  The code calls
`generate_payload_hash(payload)` with no triggers argument
(services/filtration.py line 344), hashing the full payload:
`c4_payload_a` and `c4_payload_b` agree on every trigger-declared field
(only the owners list differs, and no trigger declares it) and hash equal
under the trigger-restricted hash the claim describes, yet hash
differently under the hash the code uses.  Evaluated on a store whose
execution `1` carries the full-payload hash of `c4_payload_a`: the
identical payload is deduplicated onto execution `1` through the reuse
path, while `c4_payload_b` — which the claim says must reuse the same
execution — misses the hash lookup, falls into the create path, and there
raises `TypeError` on the config fetched from the stubbed
`ProcessorRepository.get_underwriting_processor_by_id`; either way it is
not mapped to execution `1`. -/
theorem C4_dedup_hash_ignores_triggers :
    generate_payload_hash c4_payload_a (some c4_triggers)
      = generate_payload_hash c4_payload_b (some c4_triggers)
    ∧ generate_payload_hash c4_payload_a ≠ generate_payload_hash c4_payload_b
    ∧ Filtration.generate_execution "up1" c4_payload_a false c4_db
      = .ok (1, c4_db)
    ∧ Filtration.generate_execution "up1" c4_payload_b false c4_db
      = .error "TypeError: NoneType object is not subscriptable" :=
  ⟨rfl, by decide, rfl, rfl⟩

/-- C5: the spec says an `extract` failure with any of
`FactorExtractionError`, `ApiError` or `DataTransformationError` is
reported with `error_phase="extraction"`, and only exceptions outside the
declared taxonomy get `"unknown"`.  On the code, only
`FactorExtractionError` is named by an `except` clause of
`BaseProcessor.execute`; `ApiError` and `DataTransformationError` — both
declared in `extract`'s docstring and grouped under "Extraction Phase
Exceptions" in exceptions.py — fall through to the `BaseException`
catch-all and are reported as `"unknown"`. -/
theorem C5_extract_api_error_phase_unknown :
    (BaseProcessor.execute (extract_raises { kind := .factor_extraction, msg := "boom" }) []).error_phase
      = some "extraction"
    ∧ (BaseProcessor.execute (extract_raises { kind := .api, msg := "boom" }) []).status
      = .failed
    ∧ (BaseProcessor.execute (extract_raises { kind := .api, msg := "boom" }) []).error_phase
      = some "unknown"
    ∧ (BaseProcessor.execute (extract_raises { kind := .data_transformation, msg := "boom" }) []).error_phase
      = some "unknown"
    ∧ (BaseProcessor.execute (extract_raises { kind := .api, msg := "boom" }) []).error_phase
      ≠ some "extraction" :=
  ⟨rfl, rfl, rfl, rfl, by decide⟩

/-- C8: the claim describes workflow W5 (disable execution).  In the code
the subscriber subscribes to four topics only — there is no
`underwriting.execution.disable` subscription or handler; the repository
operation that would set `enabled=false`
(`ExecutionRepository.deactivate_execution`) is a stub returning `False`
without a write (pinned by its unit test); and the only factor-clearing
operation, `FactorRepository.clear_factors`, filters by
`underwriting_processor_id`, not by `execution_id` — on the store below it
deletes the factor rows of both executions 1 and 2, not only the disabled
one. -/
theorem C8_disable_workflow_missing :
    ("underwriting.execution.disable" ∉ subscriber_topics)
    ∧ ExecutionRepository.deactivate_execution 1 c8_db = (false, c8_db)
    ∧ ((FactorRepository.clear_factors "uw" "up1" c8_db).2.factors.map
        (fun f => (f.execution_id, f.status)))
      = [(some 1, "deleted"), (some 2, "deleted")] :=
  ⟨by decide, rfl, rfl⟩

/-- Updating the pre-extraction phase functions is unaffected by replacing
`extract`: the phase never reads that field. -/
theorem phase_preextraction_set_extract {T : Type}
    (P : BaseProcessor.ProcessorImpl T) (payload : JDict)
    (extract' : T → Except BaseProcessor.PyError JDict) :
    BaseProcessor.phase_preextraction { P with extract := extract' } payload
      = BaseProcessor.phase_preextraction P payload := rfl

/-- C6: `execute` returns `completed` exactly when all three phases succeed
in order; and a pre-extraction failure of one of the three declared
pre-extraction kinds — `prevalidate` raising `PrevalidationError`,
`transform_input` raising `TransformationError`, or `validate_input`
reporting `is_valid=false` (which the phase raises as
`InputValidationError`) — yields a failed result attributed to
`pre-extraction` with empty output, whose value does not depend on the
extraction behaviour at all: the extraction phase is never entered, so
there is no partial success. -/
theorem C6_pipeline_atomicity {T : Type} (P : BaseProcessor.ProcessorImpl T)
    (payload : JDict) :
    ((BaseProcessor.execute P payload).status = .completed ↔
      ∃ t out vout, BaseProcessor.phase_preextraction P payload = .ok t
        ∧ BaseProcessor.phase_extraction P t = .ok out
        ∧ BaseProcessor.phase_postextraction P out = .ok vout)
    ∧ (∀ e : BaseProcessor.PyError,
        BaseProcessor.phase_preextraction P payload = .error e →
        (e.kind = .prevalidation ∨ e.kind = .transformation ∨ e.kind = .input_validation) →
          (BaseProcessor.execute P payload).status = .failed
          ∧ (BaseProcessor.execute P payload).error_phase = some "pre-extraction"
          ∧ (BaseProcessor.execute P payload).output = []
          ∧ ∀ extract' : T → Except BaseProcessor.PyError JDict,
              BaseProcessor.execute { P with extract := extract' } payload
                = BaseProcessor.execute P payload) := by
  constructor
  · cases h₁ : BaseProcessor.phase_preextraction P payload with
    | error e =>
      have hex : BaseProcessor.execute P payload = BaseProcessor.mk_failed [] e := by
        simp only [BaseProcessor.execute, h₁]
      constructor
      · intro hst
        exact absurd hst (by simp [hex, BaseProcessor.mk_failed])
      · rintro ⟨t, out, vout, ht, -, -⟩
        cases ht
    | ok t =>
      cases h₂ : BaseProcessor.phase_extraction P t with
      | error e =>
        have hex : BaseProcessor.execute P payload = BaseProcessor.mk_failed [] e := by
          simp only [BaseProcessor.execute, h₁, h₂]
        constructor
        · intro hst
          exact absurd hst (by simp [hex, BaseProcessor.mk_failed])
        · rintro ⟨t', out, vout, ht', hext, -⟩
          cases ht'
          rw [h₂] at hext; cases hext
      | ok output =>
        cases h₃ : BaseProcessor.phase_postextraction P output with
        | error e =>
          have hex : BaseProcessor.execute P payload = BaseProcessor.mk_failed output e := by
            simp only [BaseProcessor.execute, h₁, h₂, h₃]
          constructor
          · intro hst
            exact absurd hst (by simp [hex, BaseProcessor.mk_failed])
          · rintro ⟨t', out', vout, ht', hext, hpost⟩
            cases ht'
            rw [h₂] at hext
            cases hext
            rw [h₃] at hpost; cases hpost
        | ok vout =>
          have hex : (BaseProcessor.execute P payload).status = .completed := by
            simp [BaseProcessor.execute, h₁, h₂, h₃]
          exact ⟨fun _ => ⟨t, output, vout, rfl, h₂, h₃⟩, fun _ => hex⟩
  · intro e he hkind
    have hex : BaseProcessor.execute P payload = BaseProcessor.mk_failed [] e := by
      simp only [BaseProcessor.execute, he]
    have hphase : BaseProcessor.error_phase_of e = "pre-extraction" := by
      obtain ⟨k, m⟩ := e
      rcases hkind with h | h | h <;>
        · simp only [] at h; subst h; rfl
    refine ⟨by simp [hex, BaseProcessor.mk_failed], ?_, by simp [hex, BaseProcessor.mk_failed], ?_⟩
    · simp [hex, BaseProcessor.mk_failed, hphase]
    · intro extract'
      have he' : BaseProcessor.phase_preextraction { P with extract := extract' } payload
          = .error e := by
        rw [phase_preextraction_set_extract]; exact he
      rw [hex]
      unfold BaseProcessor.execute; rw [he']

/-- C6 witness: a processor whose `transform_input` raises
`TransformationError` fails in the pre-extraction phase with empty
output. -/
theorem C6_witness :
    (BaseProcessor.execute transform_raises []).status = .failed
    ∧ (BaseProcessor.execute transform_raises []).error_phase = some "pre-extraction"
    ∧ (BaseProcessor.execute transform_raises []).output = [] := by
  have h := (C6_pipeline_atomicity transform_raises []).2
    { kind := .transformation, msg := "bad input" } rfl (Or.inr (Or.inl rfl))
  exact ⟨h.1, h.2.1, h.2.2.1⟩

/-- C7 counterexample: a row whose status is `failed` is, per the claim, in
the launch set, but the duplicated execution stage
`OrchestrationService._execution` (one of the claim's cited code places)
skips it — it launches only rows whose status is exactly `pending` — while
`services/execution.execution` launches it. -/
theorem C7_counterexample :
    ExecutionRepository.get_execution_by_id 5 c7_db = some c7_failed_row
    ∧ c7_failed_row.status = "failed"
    ∧ OrchestrationService.execution_launch_list [5] c7_db = []
    ∧ ExecutionService.execution_launch_list [5] c7_db = [c7_failed_row] :=
  ⟨rfl, rfl, rfl, rfl⟩

/-- C7 (amended): a loaded row is launched by the execution stage in
services/execution.py iff its status is `pending` or `failed`; the
duplicated stage `OrchestrationService._execution` launches a loaded row
iff its status is `pending`, so `failed` rows are skipped there as well. -/
theorem C7_launch_characterization (execution_list : List Nat) (db : DB)
    (r : ExecutionRow) :
    (r ∈ ExecutionService.execution_launch_list execution_list db ↔
      (∃ i ∈ execution_list, ExecutionRepository.get_execution_by_id i db = some r)
      ∧ (r.status = "pending" ∨ r.status = "failed"))
    ∧ (r ∈ OrchestrationService.execution_launch_list execution_list db ↔
      (∃ i ∈ execution_list, ExecutionRepository.get_execution_by_id i db = some r)
      ∧ r.status = "pending") := by
  constructor
  · rw [ExecutionService.execution_launch_list, List.mem_filterMap]
    constructor
    · rintro ⟨i, hi, hf⟩
      cases hg : ExecutionRepository.get_execution_by_id i db with
      | none => rw [hg] at hf; cases hf
      | some e =>
        rw [hg] at hf
        simp only [] at hf
        split at hf
        · rename_i hc
          cases hf
          refine ⟨⟨i, hi, hg⟩, ?_⟩
          simpa using hc
        · cases hf
    · rintro ⟨⟨i, hi, hg⟩, hst⟩
      refine ⟨i, hi, ?_⟩
      rw [hg]
      simp only []
      rw [if_pos (by simpa using hst)]
  · rw [OrchestrationService.execution_launch_list, List.mem_filterMap]
    constructor
    · rintro ⟨i, hi, hf⟩
      cases hg : ExecutionRepository.get_execution_by_id i db with
      | none => rw [hg] at hf; cases hf
      | some e =>
        rw [hg] at hf
        simp only [] at hf
        split at hf
        · rename_i hc
          cases hf
          refine ⟨⟨i, hi, hg⟩, ?_⟩
          simpa using hc
        · cases hf
    · rintro ⟨⟨i, hi, hg⟩, hst⟩
      refine ⟨i, hi, ?_⟩
      rw [hg]
      simp only []
      rw [if_pos (by simpa using hst)]

/-- Looking a row up after a by-id in-place update finds the updated row:
the repository's `UPDATE ... WHERE id = %s` followed by a `SELECT ...
WHERE id = %s`. -/
theorem find_update_row (i : Nat) (f : ExecutionRow → ExecutionRow)
    (hf : ∀ r, (f r).id = r.id) (l : List ExecutionRow) :
    (l.map (fun r => if r.id == i then f r else r)).find? (fun r => r.id == i)
      = (l.find? (fun r => r.id == i)).map f := by
  induction l with
  | nil => rfl
  | cons a t ih =>
    by_cases ha : (a.id == i) = true
    · have hfa : ((f a).id == i) = true := by rw [hf]; exact ha
      have e₁ : List.find? (fun r => r.id == i)
          (List.map (fun r => if r.id == i then f r else r) (a :: t)) = some (f a) := by
        rw [List.map_cons, if_pos ha]
        exact List.find?_cons_of_pos _ hfa
      have e₂ : List.find? (fun r => r.id == i) (a :: t) = some a :=
        List.find?_cons_of_pos _ ha
      rw [e₁, e₂]
      rfl
    · have e₁ : List.find? (fun r => r.id == i)
          (List.map (fun r => if r.id == i then f r else r) (a :: t))
          = List.find? (fun r => r.id == i)
              (List.map (fun r => if r.id == i then f r else r) t) := by
        rw [List.map_cons, if_neg ha]
        exact List.find?_cons_of_neg _ ha
      have e₂ : List.find? (fun r => r.id == i) (a :: t)
          = List.find? (fun r => r.id == i) t :=
        List.find?_cons_of_neg _ ha
      rw [e₁, e₂]
      exact ih

/-- Effect of `update_execution_status` on the later lookup of the same
row. -/
theorem get_after_update_execution_status (i : Nat) (s : String)
    (fr : Option String) (db : DB) :
    ExecutionRepository.get_execution_by_id i
        (ExecutionRepository.update_execution_status i s fr db)
      = (ExecutionRepository.get_execution_by_id i db).map (fun r =>
          { r with
              status := s
              failed_reason := match fr with
                | some m => if m == "" then r.failed_reason else some m
                | none => r.failed_reason }) := by
  exact find_update_row i (fun r =>
    { r with
        status := s
        failed_reason := match fr with
          | some m => if m == "" then r.failed_reason else some m
          | none => r.failed_reason }) (fun _ => rfl) db.executions

/-- Effect of `save_execution_result` on the later lookup of the same
row. -/
theorem get_after_save_execution_result (i : Nat) (output factors : JDict)
    (cost : Int) (db : DB) :
    ExecutionRepository.get_execution_by_id i
        (ExecutionRepository.save_execution_result i output factors cost db)
      = (ExecutionRepository.get_execution_by_id i db).map (fun r =>
          { r with
              status := "completed"
              factors_delta := if (dictMerge factors output).isEmpty then none
                               else some (dictMerge factors output)
              run_cost_cents := some cost }) := by
  exact find_update_row i (fun r =>
    { r with
        status := "completed"
        factors_delta := if (dictMerge factors output).isEmpty then none
                         else some (dictMerge factors output)
        run_cost_cents := some cost }) (fun _ => rfl) db.executions

/-- Merging the execution output over an empty factors dict (the stage
always passes `factors=\x7b\x7d`) is the output itself. -/
theorem dictMerge_nil_left (b : JDict) : dictMerge [] b = b := by
  unfold dictMerge
  simp [dictGet, List.filter_eq_self]

/-- C10 counterexample: an exception whose `str(e)` is the empty string
ends the launched run with `status='failed'` but no recorded
`failed_reason`: the `if failed_reason:` truthiness guard of
`update_execution_status` skips the column for an empty message, contrary
to the claim's "status=failed with failed_reason recorded". -/
theorem C10_counterexample :
    ((ExecutionService.run_single_execution c10_row (.raised "") c10_db).2.executions.map
        (fun r => (r.status, r.failed_reason))) = [("failed", none)] := rfl

/-- C10 (amended): a launched run always leaves its row in a persisted
terminal status, whatever the processor or pipeline does — `completed`
with the output stored in `factors_delta` (NULL for an empty output) and
the cost in `run_cost_cents`, or `failed`; on failure `failed_reason`
records the message whenever it is non-empty (the repository's truthiness
guard skips an empty message).  The row is never left `running`. -/
theorem C10_launched_runs_end_terminal (execution : ExecutionRow)
    (outcome : ExecutionService.ProcOutcome) (db : DB)
    (h : ExecutionRepository.get_execution_by_id execution.id db = some execution) :
    ∃ r : ExecutionRow,
      ExecutionRepository.get_execution_by_id execution.id
          (ExecutionService.run_single_execution execution outcome db).2 = some r
      ∧ (r.status = "completed" ∨ r.status = "failed")
      ∧ r.status ≠ "running"
      ∧ (∀ res, outcome = .result res → res.is_successful = true →
          r.status = "completed"
          ∧ r.factors_delta = (if res.output.isEmpty then none else some res.output)
          ∧ r.run_cost_cents = some res.total_cost_cents)
      ∧ (∀ res, outcome = .result res → res.is_successful = false →
          r.status = "failed"
          ∧ ∀ m, res.error_message = some m → m ≠ "" → r.failed_reason = some m)
      ∧ (∀ msg, outcome = .raised msg →
          r.status = "failed" ∧ (msg ≠ "" → r.failed_reason = some msg)) := by
  cases outcome with
  | raised msg =>
    have hget : ExecutionRepository.get_execution_by_id execution.id
        (ExecutionService.run_single_execution execution (.raised msg) db).2
        = some { execution with
                   status := "failed"
                   failed_reason := if msg == "" then execution.failed_reason
                                    else some msg } := by
      show ExecutionRepository.get_execution_by_id execution.id
        (ExecutionRepository.update_execution_status execution.id "failed" (some msg)
          (ExecutionRepository.update_execution_status execution.id "running" none db))
        = _
      rw [get_after_update_execution_status, get_after_update_execution_status, h]
      rfl
    refine ⟨_, hget, Or.inr rfl,
      by show ("failed" : String) ≠ "running"; decide, ?_, ?_, ?_⟩
    · intro res hres; cases hres
    · intro res hres; cases hres
    · intro m hm
      cases hm
      refine ⟨rfl, ?_⟩
      intro hne
      have hne' : (msg == "") = false := by simpa using hne
      simp only [hne', Bool.false_eq_true, if_false]
  | result res =>
    by_cases hs : res.is_successful = true
    · have hrun : (ExecutionService.run_single_execution execution (.result res) db).2
          = ExecutionRepository.save_execution_result execution.id res.output []
              res.total_cost_cents
              (ExecutionRepository.update_execution_status execution.id "running" none db) := by
        simp [ExecutionService.run_single_execution, hs]
      have hget : ExecutionRepository.get_execution_by_id execution.id
          (ExecutionService.run_single_execution execution (.result res) db).2
          = some { execution with
                     status := "completed"
                     factors_delta := if res.output.isEmpty then none else some res.output
                     run_cost_cents := some res.total_cost_cents } := by
        rw [hrun, get_after_save_execution_result, get_after_update_execution_status, h,
            dictMerge_nil_left]
        rfl
      refine ⟨_, hget, Or.inl rfl,
        by show ("completed" : String) ≠ "running"; decide, ?_, ?_, ?_⟩
      · intro res' hres' _
        cases hres'
        exact ⟨rfl, rfl, rfl⟩
      · intro res' hres' hs''
        cases hres'
        rw [hs] at hs''; cases hs''
      · intro m hm; cases hm
    · have hs' : res.is_successful = false := by simpa using hs
      have hrun : (ExecutionService.run_single_execution execution (.result res) db).2
          = ExecutionRepository.update_execution_status execution.id "failed"
              res.error_message
              (ExecutionRepository.update_execution_status execution.id "running" none db) := by
        simp [ExecutionService.run_single_execution, hs']
      have hget : ExecutionRepository.get_execution_by_id execution.id
          (ExecutionService.run_single_execution execution (.result res) db).2
          = some { execution with
                     status := "failed"
                     failed_reason := match res.error_message with
                       | some m => if m == "" then execution.failed_reason else some m
                       | none => execution.failed_reason } := by
        rw [hrun, get_after_update_execution_status, get_after_update_execution_status, h]
        rfl
      refine ⟨_, hget, Or.inr rfl,
        by show ("failed" : String) ≠ "running"; decide, ?_, ?_, ?_⟩
      · intro res' hres' hs''
        cases hres'
        rw [hs'] at hs''; cases hs''
      · intro res' hres' _
        cases hres'
        refine ⟨rfl, ?_⟩
        intro m hm hne
        have hne' : (m == "") = false := by simpa using hne
        simp only [hm, hne', Bool.false_eq_true, if_false]
      · intro m hm; cases hm

/-- C10 witness: the pending row of `c10_db`, launched and ending in an
arbitrary exception with message "boom", is left `failed` (never
`running`). -/
theorem C10_witness :
    ∃ r : ExecutionRow,
      ExecutionRepository.get_execution_by_id c10_row.id
          (ExecutionService.run_single_execution c10_row (.raised "boom") c10_db).2 = some r
      ∧ (r.status = "completed" ∨ r.status = "failed")
      ∧ r.status ≠ "running" := by
  obtain ⟨r, h1, h2, h3, -⟩ :=
    C10_launched_runs_end_terminal c10_row (.raised "boom") c10_db rfl
  exact ⟨r, h1, h2, h3⟩

/-! ## Order lemmas for the canonical serialization -/

/-- Totality of the character order. -/
theorem charLeB_total (a b : Char) : charLeB a b = true ∨ charLeB b a = true := by
  unfold charLeB
  rcases le_total a b with h | h
  · exact Or.inl (decide_eq_true h)
  · exact Or.inr (decide_eq_true h)

/-- Transitivity of the character order. -/
theorem charLeB_trans {a b c : Char} (h₁ : charLeB a b = true)
    (h₂ : charLeB b c = true) : charLeB a c = true := by
  unfold charLeB at h₁ h₂ ⊢
  exact decide_eq_true (le_trans (of_decide_eq_true h₁) (of_decide_eq_true h₂))

/-- Antisymmetry of the character order. -/
theorem charLeB_antisymm {a b : Char} (h₁ : charLeB a b = true)
    (h₂ : charLeB b a = true) : a = b :=
  le_antisymm (of_decide_eq_true h₁) (of_decide_eq_true h₂)

/-- Totality of the code-point lexicographic order. -/
theorem clistLe_total : ∀ as bs : List Char,
    clistLe as bs = true ∨ clistLe bs as = true := by
  intro as
  induction as with
  | nil => intro bs; exact Or.inl rfl
  | cons a as ih =>
    intro bs
    cases bs with
    | nil => exact Or.inr rfl
    | cons b bs =>
      by_cases hab : a = b
      · subst hab
        simp only [clistLe, if_pos rfl]
        exact ih bs
      · have hba : ¬ b = a := fun h => hab h.symm
        simp only [clistLe, if_neg hab, if_neg hba]
        exact charLeB_total a b

/-- Transitivity of the code-point lexicographic order. -/
theorem clistLe_trans : ∀ as bs cs : List Char,
    clistLe as bs = true → clistLe bs cs = true → clistLe as cs = true := by
  intro as
  induction as with
  | nil => intro bs cs _ _; rfl
  | cons a as ih =>
    intro bs cs h₁ h₂
    cases bs with
    | nil => simp [clistLe] at h₁
    | cons b bs =>
      cases cs with
      | nil => simp [clistLe] at h₂
      | cons c cs =>
        by_cases hab : a = b
        · subst hab
          rw [clistLe, if_pos rfl] at h₁
          by_cases hac : a = c
          · subst hac
            rw [clistLe, if_pos rfl] at h₂ ⊢
            exact ih bs cs h₁ h₂
          · rw [clistLe, if_neg hac] at h₂ ⊢
            exact h₂
        · rw [clistLe, if_neg hab] at h₁
          by_cases hbc : b = c
          · subst hbc
            rw [clistLe, if_neg hab]
            exact h₁
          · rw [clistLe, if_neg hbc] at h₂
            by_cases hac : a = c
            · subst hac
              exact absurd (charLeB_antisymm h₁ h₂) hab
            · rw [clistLe, if_neg hac]
              exact charLeB_trans h₁ h₂

/-- Antisymmetry of the code-point lexicographic order. -/
theorem clistLe_antisymm : ∀ as bs : List Char,
    clistLe as bs = true → clistLe bs as = true → as = bs := by
  intro as
  induction as with
  | nil =>
    intro bs h₁ h₂
    cases bs with
    | nil => rfl
    | cons b bs => simp [clistLe] at h₂
  | cons a as ih =>
    intro bs h₁ h₂
    cases bs with
    | nil => simp [clistLe] at h₁
    | cons b bs =>
      by_cases hab : a = b
      · subst hab
        simp only [clistLe, if_pos rfl] at h₁ h₂
        rw [ih bs h₁ h₂]
      · have hba : ¬ b = a := fun h => hab h.symm
        simp only [clistLe, if_neg hab, if_neg hba] at h₁ h₂
        exact absurd (charLeB_antisymm h₁ h₂) hab

/-- Totality of the Python string order. -/
theorem strLe_total (s t : String) : strLe s t = true ∨ strLe t s = true :=
  clistLe_total s.data t.data

/-- Transitivity of the Python string order. -/
theorem strLe_trans {s t u : String} (h₁ : strLe s t = true)
    (h₂ : strLe t u = true) : strLe s u = true :=
  clistLe_trans s.data t.data u.data h₁ h₂

/-- Antisymmetry of the Python string order. -/
theorem strLe_antisymm {s t : String} (h₁ : strLe s t = true)
    (h₂ : strLe t s = true) : s = t := by
  have hd := clistLe_antisymm s.data t.data h₁ h₂
  cases s with
  | mk ds =>
    cases t with
    | mk dt =>
      simp only at hd
      rw [hd]

/-- Rank ordering agrees with the primitive order. -/
theorem JPrim.leB_total : ∀ a b : JPrim,
    JPrim.leB a b = true ∨ JPrim.leB b a = true := by
  intro a b
  cases a with
  | pnull =>
    cases b with
    | pnull => exact Or.inl rfl
    | pbool y => exact Or.inl rfl
    | pint n => exact Or.inl rfl
    | pstr s => exact Or.inl rfl
  | pbool x =>
    cases b with
    | pnull => exact Or.inr rfl
    | pbool y => cases x <;> cases y <;> simp [JPrim.leB]
    | pint n => exact Or.inl rfl
    | pstr s => exact Or.inl rfl
  | pint m =>
    cases b with
    | pnull => exact Or.inr rfl
    | pbool y => exact Or.inr rfl
    | pint n =>
      rcases le_total m n with h | h
      · exact Or.inl (decide_eq_true h)
      · exact Or.inr (decide_eq_true h)
    | pstr s => exact Or.inl rfl
  | pstr s =>
    cases b with
    | pnull => exact Or.inr rfl
    | pbool y => exact Or.inr rfl
    | pint n => exact Or.inr rfl
    | pstr t => exact strLe_total s t

/-- Transitivity of the primitive order. -/
theorem JPrim.leB_trans : ∀ a b c : JPrim, JPrim.leB a b = true →
    JPrim.leB b c = true → JPrim.leB a c = true := by
  intro a b c h₁ h₂
  cases a <;> cases b <;> cases c <;>
    simp only [JPrim.leB, JPrim.rank] at h₁ h₂ ⊢ <;>
    first
    | rfl
    | exact absurd h₁ (by decide)
    | exact absurd h₂ (by decide)
    | exact strLe_trans h₁ h₂
    | exact decide_eq_true (le_trans (of_decide_eq_true h₁) (of_decide_eq_true h₂))
    | (rename_i x y z
       revert h₁ h₂
       cases x <;> cases y <;> cases z <;> decide)

/-- Antisymmetry of the primitive order. -/
theorem JPrim.leB_antisymm : ∀ a b : JPrim, JPrim.leB a b = true →
    JPrim.leB b a = true → a = b := by
  intro a b h₁ h₂
  cases a <;> cases b <;>
    simp only [JPrim.leB, JPrim.rank] at h₁ h₂ <;>
    first
    | rfl
    | exact absurd h₁ (by decide)
    | exact absurd h₂ (by decide)
    | exact congrArg JPrim.pint
        (le_antisymm (of_decide_eq_true h₁) (of_decide_eq_true h₂))
    | exact congrArg JPrim.pstr (strLe_antisymm h₁ h₂)
    | (rename_i x y
       revert h₁ h₂
       cases x <;> cases y <;> decide)

/-- Two permuted lists, both sorted by a key order antisymmetric on keys,
with no repeated key, are equal: sorting is insensitive to the input
order. -/
theorem perm_pairwise_key_eq {α κ : Type} (key : α → κ) (le : κ → κ → Bool)
    (hanti : ∀ x y, le x y = true → le y x = true → x = y) :
    ∀ l₁ l₂ : List α, l₁.Perm l₂ →
      l₁.Pairwise (fun x y => le (key x) (key y) = true) →
      l₂.Pairwise (fun x y => le (key x) (key y) = true) →
      (l₁.map key).Nodup → l₁ = l₂ := by
  intro l₁
  induction l₁ with
  | nil =>
    intro l₂ hp _ _ _
    exact hp.nil_eq
  | cons a t ih =>
    intro l₂ hp hs₁ hs₂ hnd
    cases l₂ with
    | nil => exact absurd hp.symm.nil_eq (by simp)
    | cons b t₂ =>
      have hab : a = b := by
        have hbmem : b ∈ a :: t := hp.mem_iff.mpr (List.mem_cons_self b t₂)
        have hamem : a ∈ b :: t₂ := hp.mem_iff.mp (List.mem_cons_self a t)
        rcases List.mem_cons.mp hbmem with hba | hbt
        · exact hba.symm
        · rcases List.mem_cons.mp hamem with hab' | hat
          · exact hab'
          · have h₁ : le (key a) (key b) = true :=
              (List.pairwise_cons.mp hs₁).1 b hbt
            have h₂ : le (key b) (key a) = true :=
              (List.pairwise_cons.mp hs₂).1 a hat
            have hk : key a = key b := hanti _ _ h₁ h₂
            have hmem : key a ∈ t.map key := by
              rw [hk]
              exact List.mem_map_of_mem key hbt
            rw [List.map_cons] at hnd
            exact absurd hmem (List.nodup_cons.mp hnd).1
      subst hab
      have hp' : t.Perm t₂ := (List.perm_cons a).mp hp
      rw [List.map_cons] at hnd
      rw [ih t₂ hp' (List.pairwise_cons.mp hs₁).2 (List.pairwise_cons.mp hs₂).2
        (List.nodup_cons.mp hnd).2]

/-- Key-sorting normalized dict entries is invariant under the order the
entries came in, when no key repeats. -/
theorem insertionSort_entries_perm_eq {es fs : List (String × CValue)}
    (hp : es.Perm fs) (hnd : (es.map Prod.fst).Nodup) :
    List.insertionSort entryLe es = List.insertionSort entryLe fs := by
  haveI : IsTotal (String × CValue) entryLe := ⟨fun a b => strLe_total a.1 b.1⟩
  haveI : IsTrans (String × CValue) entryLe :=
    ⟨fun _ _ _ h₁ h₂ => strLe_trans h₁ h₂⟩
  apply perm_pairwise_key_eq Prod.fst strLe (fun _ _ h₁ h₂ => strLe_antisymm h₁ h₂)
  · exact ((List.perm_insertionSort entryLe es).trans hp).trans
      (List.perm_insertionSort entryLe fs).symm
  · exact List.sorted_insertionSort entryLe es
  · exact List.sorted_insertionSort entryLe fs
  · exact (((List.perm_insertionSort entryLe es).map Prod.fst).nodup_iff).mpr hnd

/-- Sorting the members of a set is invariant under the order they came
in (Python set members are pairwise distinct). -/
theorem insertionSort_prims_perm_eq {ps qs : List JPrim}
    (hp : ps.Perm qs) (hnd : ps.Nodup) :
    List.insertionSort primLe ps = List.insertionSort primLe qs := by
  haveI : IsTotal JPrim primLe := ⟨fun a b => JPrim.leB_total a b⟩
  haveI : IsTrans JPrim primLe := ⟨fun a b c h₁ h₂ => JPrim.leB_trans a b c h₁ h₂⟩
  apply perm_pairwise_key_eq id JPrim.leB (fun a b h₁ h₂ => JPrim.leB_antisymm a b h₁ h₂)
  · exact ((List.perm_insertionSort primLe ps).trans hp).trans
      (List.perm_insertionSort primLe qs).symm
  · exact List.sorted_insertionSort primLe ps
  · exact List.sorted_insertionSort primLe qs
  · rw [List.map_id]
    exact ((List.perm_insertionSort primLe ps).nodup_iff).mpr hnd

/-- Pointwise normalization of list items is a `map`. -/
theorem normalizeList_eq_map : ∀ xs : List JValue,
    normalizeList xs = xs.map normalize_for_hashing := by
  intro xs
  induction xs with
  | nil => rfl
  | cons x xs ih => simp [normalizeList, ih]

/-- Pointwise normalization of dict entries is a `map`. -/
theorem normalizeEntries_eq_map : ∀ es : List (String × JValue),
    normalizeEntries es = es.map (fun e => (e.1, normalize_for_hashing e.2)) := by
  intro es
  induction es with
  | nil => rfl
  | cons e es ih =>
    obtain ⟨k, v⟩ := e
    simp [normalizeEntries, ih]

/-- Normalization is the identity embedding on primitive values. -/
theorem normalize_toJValue (p : JPrim) :
    normalize_for_hashing p.toJValue = p.toCValue := by
  cases p <;> rfl

/-- Hash-equivalent payload values normalize to the same canonical value:
key sorting erases dict insertion order, member sorting erases set order,
and the congruence cases push both facts to every depth. -/
theorem HashEquiv.normalize_eq {v w : JValue} (h : HashEquiv v w) :
    normalize_for_hashing v = normalize_for_hashing w := by
  induction h with
  | jnull => rfl
  | jbool b => rfl
  | jint n => rfl
  | jstr s => rfl
  | list_nil => rfl
  | list_cons h₁ h₂ ih₁ ih₂ =>
    rename_i x y xs ys
    have hl : normalizeList xs = normalizeList ys := by
      simpa [normalize_for_hashing, CValue.carr.injEq] using ih₂
    simp only [normalize_for_hashing, normalizeList]
    rw [ih₁, hl]
  | tuple_nil => rfl
  | tuple_cons h₁ h₂ ih₁ ih₂ =>
    rename_i x y xs ys
    have hl : normalizeList xs = normalizeList ys := by
      simpa [normalize_for_hashing, CValue.carr.injEq] using ih₂
    simp only [normalize_for_hashing, normalizeList]
    rw [ih₁, hl]
  | set_perm hp hnd =>
    simp only [normalize_for_hashing]
    rw [insertionSort_prims_perm_eq hp hnd]
  | dict_nil => rfl
  | dict_cons h₁ h₂ ih₁ ih₂ =>
    rename_i k v' w' es fs
    have hs : List.insertionSort entryLe (normalizeEntries es)
        = List.insertionSort entryLe (normalizeEntries fs) := by
      simpa [normalize_for_hashing, CValue.cobj.injEq] using ih₂
    simp only [normalize_for_hashing, normalizeEntries, List.insertionSort]
    rw [ih₁, hs]
  | dict_perm hp hnd =>
    rename_i es fs
    have hp' : (normalizeEntries es).Perm (normalizeEntries fs) := by
      rw [normalizeEntries_eq_map, normalizeEntries_eq_map]
      exact hp.map _
    have hnd' : ((normalizeEntries es).map Prod.fst).Nodup := by
      rw [normalizeEntries_eq_map, List.map_map]
      simpa [Function.comp] using hnd
    simp only [normalize_for_hashing]
    rw [insertionSort_entries_perm_eq hp' hnd']
  | trans h₁ h₂ ih₁ ih₂ => exact ih₁.trans ih₂

/-- Canonical JSON strings of hash-equivalent values are equal — hence so
are their SHA-256 digests. -/
theorem HashEquiv.canonicalJson_eq {v w : JValue} (h : HashEquiv v w) :
    canonicalJson v = canonicalJson w := by
  unfold canonicalJson
  rw [h.normalize_eq]

/-- C9: `generate_payload_hash` is a deterministic function of the
payload's abstract value: hash-equivalent payloads (equal as nested
maps/collections, map insertion order free at any depth, set member order
free) hash identically; a set hashes as its sorted-list normalization; a
tuple hashes as the corresponding list; and exchanging two distinct list
items changes the hashed canonical form (list order is semantic). -/
theorem C9_hash_determinism :
    (∀ p q : JDict, HashEquiv (.jdict p) (.jdict q) →
      generate_payload_hash p = generate_payload_hash q)
    ∧ (∀ v w : JValue, HashEquiv v w → canonicalJson v = canonicalJson w)
    ∧ (∀ ps : List JPrim, canonicalJson (.jset ps)
        = canonicalJson (.jlist ((List.insertionSort primLe ps).map JPrim.toJValue)))
    ∧ (∀ xs : List JValue, canonicalJson (.jtuple xs) = canonicalJson (.jlist xs))
    ∧ canonicalJson (.jlist [.jint 1, .jint 2])
        ≠ canonicalJson (.jlist [.jint 2, .jint 1]) := by
  refine ⟨?_, fun v w h => h.canonicalJson_eq, ?_, fun xs => rfl, by decide⟩
  · intro p q h
    exact h.canonicalJson_eq
  · intro ps
    unfold canonicalJson
    simp only [normalize_for_hashing]
    rw [normalizeList_eq_map, List.map_map]
    congr 2
    apply List.map_congr_left
    intro p _
    exact (normalize_toJValue p).symm

/-- C9 witness: two insertion orders of the same two-entry payload dict
hash identically. -/
theorem C9_witness :
    generate_payload_hash [("b", .jint 2), ("a", .jint 1)]
      = generate_payload_hash [("a", .jint 1), ("b", .jint 2)] :=
  C9_hash_determinism.1 _ _
    (HashEquiv.dict_perm
      (List.Perm.swap (("a", JValue.jint 1) : String × JValue)
        (("b", JValue.jint 2) : String × JValue) [])
      (by decide))

end Aura
